import Mathlib

/-!
Verification of the rtasks task/project manager core.

The development shallowly embeds the Rust sources:
  - src/project.rs : the event-log data model (State, Event, Task, Project)
    and the per-project sorting and lookup helpers;
  - src/database.rs : the persistence store (a vector of projects with
    index-addressed mutation operations, each followed by a synchronous save);
  - src/main.rs : the navigation state machine (Context, cursor movement,
    pane transitions, deletion) and the key handler change_status.

Machine integers: the cursor row and pane length are Rust u16 values; the
subtractions in Context::idx and in the movement/deletion code wrap modulo
2^16 (release-mode two's-complement behaviour), which we model explicitly
with `% U16` arithmetic on Nat.  File I/O is modelled by a boolean oracle
`saveOk` standing for the success of one synchronous save; every store
operation returns the sequence of document snapshots it wrote.
-/

namespace RTasks

/-! Data model (src/project.rs). -/

/-- Derived Ord on the Rust enum orders constructors in declaration order:
ONGOING < TODO < DONE. -/
inductive State where
  | ONGOING
  | TODO
  | DONE
deriving DecidableEq, Repr

/-- Position of a constructor in the declaration order of the State enum;
this is the key the derived Ord instance compares. -/
def State.rank : State → Nat
  | State.ONGOING => 0
  | State.TODO => 1
  | State.DONE => 2

/-- Boolean comparison a <= b in the derived order of the State enum. -/
def State.le (a b : State) : Bool := a.rank ≤ b.rank

/-- Timestamps (chrono DateTime values) are opaque to every operation we
verify, so they are modelled as plain naturals. -/
abbrev Time := Nat

/-- Tagged union of log entries, as in src/project.rs. -/
inductive Event where
  | description (data : String) (date_time : Time)
  | state (data : State) (date_time : Time)
  | comment (data : String) (date_time : Time)
deriving DecidableEq, Repr

/-- Task record: stable id, creation timestamp, append-only event log. -/
structure Task where
  id : String
  created_at : Time
  events : List Event
deriving DecidableEq, Repr, Inhabited

/-- Project record: stable id, description, notes, ordered task sequence. -/
structure Project where
  id : String
  description : String
  notes : String
  tasks : List Task
deriving DecidableEq, Repr, Inhabited

/-- Loop body of Task::state in src/project.rs: a State event overwrites the
accumulator, every other event leaves it unchanged. -/
def stepState (st : State) (e : Event) : State :=
  match e with
  | Event.state data _ => data
  | _ => st

/-- Task::state (src/project.rs lines 152-160): fold the event log starting
from TODO, keeping the payload of each State event encountered. -/
def Task.state (t : Task) : State := t.events.foldl stepState State.TODO

/-- Modelled from the spec: the data of the most recently appended State
event of an event sequence, if any. -/
def lastStateData (es : List Event) : Option State :=
  es.reverse.findSome? (fun e =>
    match e with
    | Event.state data _ => some data
    | _ => none)

/-- Project::sort_tasks (src/project.rs lines 102-104): Rust's stable
sort_by on the derived state, modelled by a stable merge sort with the
comparison of the derived Ord on State. -/
def Project.sort_tasks (p : Project) : Project :=
  { p with tasks := p.tasks.mergeSort (fun a b => a.state.le b.state) }

/-- Project::task_count (src/project.rs). -/
def Project.task_count (p : Project) : Nat := p.tasks.length

/-- Project::task_position (src/project.rs lines 110-112): index of the
first task carrying the given id. -/
def Project.task_position (p : Project) (task_id : String) : Option Nat :=
  p.tasks.findIdx? (fun t => t.id == task_id)

/-! Persistence store (src/database.rs).

The store owns a vector of projects; every mutating operation rewrites the
whole document synchronously.  The success of that single save is modelled
by the oracle `saveOk`; `writes` lists the document snapshots handed to the
file system, and `result` is the Rust io::Result of the call. -/

/-- In-place update of the element at position i, the lvalue assignment
v[i] = f(v[i]); an out-of-range index leaves the list unchanged (in Rust
such an access panics, and the theorems below carry in-range hypotheses). -/
def updateAt (l : List α) (i : Nat) (f : α → α) : List α :=
  match l, i with
  | [], _ => []
  | a :: as, 0 => f a :: as
  | a :: as, n + 1 => a :: updateAt as n f

/-- Vec::swap: exchange the entries at positions i and j in place. -/
def swapPositions [Inhabited α] (l : List α) (i j : Nat) : List α :=
  (l.set i (l.getD j default)).set j (l.getD i default)

/-- Outcome of one store operation: the in-memory collection after the
call, the document snapshots written to disk, and the returned value or
I/O error. -/
structure StoreResult (α : Type) where
  projects : List Project
  writes : List (List Project)
  result : Except Unit α
deriving Repr

/-- Database::set_task_state (src/database.rs lines 37-57): if the new
state differs from the derived one, append a State event, re-sort the
project, save, and return the task's new position located by id; otherwise
return Ok(None) without touching anything. -/
def Database.set_task_state (saveOk : Bool) (now : Time) (db : List Project)
    (project task : Nat) (state : State) : StoreResult (Option Nat) :=
  if state ≠ ((db.getD project default).tasks.getD task default).state then
    let db1 := updateAt db project (fun p =>
      { p with tasks := updateAt p.tasks task (fun t =>
          { t with events := t.events ++ [Event.state state now] }) })
    let task_id := ((db1.getD project default).tasks.getD task default).id
    let db2 := updateAt db1 project Project.sort_tasks
    if saveOk then ⟨db2, [db2], Except.ok ((db2.getD project default).task_position task_id)⟩
    else ⟨db2, [db2], Except.error ()⟩
  else ⟨db, [], Except.ok none⟩

/-- Database::add_project: push and save. -/
def Database.add_project (saveOk : Bool) (db : List Project) (p : Project) :
    StoreResult Unit :=
  let db' := db ++ [p]
  if saveOk then ⟨db', [db'], Except.ok ()⟩ else ⟨db', [db'], Except.error ()⟩

/-- Database::add_task (src/database.rs lines 64-70): push the task, re-sort
the project's tasks by derived state, save, and return the pushed task's
position after sorting, located by id. -/
def Database.add_task (saveOk : Bool) (db : List Project) (project : Nat)
    (task : Task) : StoreResult (Option Nat) :=
  let task_id := task.id
  let db' := updateAt db project (fun p =>
    Project.sort_tasks { p with tasks := p.tasks ++ [task] })
  if saveOk then ⟨db', [db'], Except.ok ((db'.getD project default).task_position task_id)⟩
  else ⟨db', [db'], Except.error ()⟩

/-- Database::remove_project: index-based removal and save. -/
def Database.remove_project (saveOk : Bool) (db : List Project)
    (project : Nat) : StoreResult Unit :=
  let db' := db.eraseIdx project
  if saveOk then ⟨db', [db'], Except.ok ()⟩ else ⟨db', [db'], Except.error ()⟩

/-- Database::remove_task: index-based removal inside one project, save. -/
def Database.remove_task (saveOk : Bool) (db : List Project)
    (project task : Nat) : StoreResult Unit :=
  let db' := updateAt db project (fun p => { p with tasks := p.tasks.eraseIdx task })
  if saveOk then ⟨db', [db'], Except.ok ()⟩ else ⟨db', [db'], Except.error ()⟩

/-- Database::swap_projects: exchange two projects in place, save. -/
def Database.swap_projects (saveOk : Bool) (db : List Project)
    (first second : Nat) : StoreResult Unit :=
  let db' := swapPositions db first second
  if saveOk then ⟨db', [db'], Except.ok ()⟩ else ⟨db', [db'], Except.error ()⟩

/-- Database::swap_tasks (src/database.rs lines 87-91): exchange the two
tasks in place, then re-sort the project's tasks by state, then save. -/
def Database.swap_tasks (saveOk : Bool) (db : List Project)
    (project first second : Nat) : StoreResult Unit :=
  let db1 := updateAt db project (fun p =>
    { p with tasks := swapPositions p.tasks first second })
  let db' := updateAt db1 project Project.sort_tasks
  if saveOk then ⟨db', [db'], Except.ok ()⟩ else ⟨db', [db'], Except.error ()⟩

/-! Navigation state machine (src/main.rs).

Cursor rows and pane lengths are u16 values; every subtraction and
addition below is the two's-complement wrap of the Rust arithmetic,
written with explicit modulus U16. -/

/-- Number of header rows above the first list row (src/main.rs line 31). -/
def HEADER_OFFSET : Nat := 2

/-- Modulus of the u16 arithmetic of the navigation code. -/
def U16 : Nat := 65536

/-- Context (src/main.rs lines 68-72): the focused pane holds the 1-based
cursor row (headers included) and the mirrored collection length. -/
inductive Context where
  | project (line : Nat) (len : Nat)
  | task (line : Nat) (len : Nat)
deriving DecidableEq, Repr

/-- Cursor row of a context. -/
def Context.line : Context → Nat
  | Context.project line _ => line
  | Context.task line _ => line

/-- Pane length of a context. -/
def Context.paneLen : Context → Nat
  | Context.project _ len => len
  | Context.task _ len => len

/-- Context::idx (src/main.rs lines 74-81): the 0-based collection index,
computed as line - HEADER_OFFSET - 1 in wrapping u16 arithmetic. -/
def Context.idx (c : Context) : Nat :=
  (c.line + (U16 - (HEADER_OFFSET + 1))) % U16

/-- next_line (src/main.rs lines 307-312): move one row down, clamped at
len + HEADER_OFFSET. -/
def next_line : Context → Context
  | Context.project line len =>
      Context.project (min ((len + HEADER_OFFSET) % U16) ((line + 1) % U16)) len
  | Context.task line len =>
      Context.task (min ((len + HEADER_OFFSET) % U16) ((line + 1) % U16)) len

/-- previous_line (src/main.rs lines 314-319): move one row up, clamped at
HEADER_OFFSET + 1. -/
def previous_line : Context → Context
  | Context.project line len =>
      Context.project (max (HEADER_OFFSET + 1) ((line + (U16 - 1)) % U16)) len
  | Context.task line len =>
      Context.task (max (HEADER_OFFSET + 1) ((line + (U16 - 1)) % U16)) len

/-- The two sibling values of the control loop: the active context and the
remembered project context (src/main.rs lines 174-175). -/
structure NavState where
  context : Context
  project_context : Context
deriving DecidableEq, Repr

/-- enter_context (src/main.rs lines 321-329): from the Project pane,
remember it and focus the Task pane of the selected project, whose task
count (cast to u16) is taskCount; from the Task pane, do nothing. -/
def enter_context (taskCount : Nat) (s : NavState) : NavState :=
  match s.context with
  | Context.project line len =>
      { context := Context.task (HEADER_OFFSET + 1) (taskCount % U16),
        project_context := Context.project line len }
  | Context.task _ _ => s

/-- leave_context (src/main.rs lines 331-335): from the Task pane, restore
the remembered project context exactly; from the Project pane, do nothing. -/
def leave_context (s : NavState) : NavState :=
  match s.context with
  | Context.task _ _ => { s with context := s.project_context }
  | Context.project _ _ => s

/-- Context transition of delete_current_line (src/main.rs lines 368-393):
on a non-empty pane the cursor moves to the row above (wrapping u16
subtraction) and the pane length drops by one; an empty pane is untouched. -/
def shrinkCtx : Context → Context
  | Context.project line len =>
      if len > 0 then Context.project ((line + (U16 - 1)) % U16) (len - 1)
      else Context.project line len
  | Context.task line len =>
      if len > 0 then Context.task ((line + (U16 - 1)) % U16) (len - 1)
      else Context.task line len

/-- delete_current_line (src/main.rs lines 368-393): remove the entity
under the cursor (a project, or a task of the remembered project) and
shrink the context; on an empty pane do nothing. -/
def delete_current_line (context project_context : Context)
    (projects : List Project) : Context × List Project :=
  match context with
  | Context.project line len =>
      if len > 0 then
        (shrinkCtx (Context.project line len),
          (Context.project line len).idx |> projects.eraseIdx)
      else (Context.project line len, projects)
  | Context.task line len =>
      if len > 0 then
        (shrinkCtx (Context.task line len),
          updateAt projects project_context.idx (fun p =>
            { p with tasks := p.tasks.eraseIdx (Context.task line len).idx }))
      else (Context.task line len, projects)

/-- change_status (src/main.rs lines 395-431): on the Task pane, step the
state of the task under the cursor with the clamped successor of the
current derived state for the key GT, the clamped predecessor for the key
LT; if the state changed, append a State event and save — without any
re-sort.  On the Project pane, do nothing. -/
def change_status (saveOk : Bool) (now : Time) (context project_context : Context)
    (projects : List Project) (change : Char) : StoreResult Unit :=
  match context with
  | Context.task line len =>
    let p := project_context.idx
    let t := (Context.task line len).idx
    let current_state := ((projects.getD p default).tasks.getD t default).state
    let next_state :=
      if change = '>' then
        match current_state with
        | State.TODO => State.ONGOING
        | State.ONGOING => State.DONE
        | s => s
      else if change = '<' then
        match current_state with
        | State.DONE => State.ONGOING
        | State.ONGOING => State.TODO
        | s => s
      else State.TODO
    if next_state ≠ current_state then
      let projects' := updateAt projects p (fun proj =>
        { proj with tasks := updateAt proj.tasks t (fun tk =>
            { tk with events := tk.events ++ [Event.state next_state now] }) })
      if saveOk then ⟨projects', [projects'], Except.ok ()⟩
      else ⟨projects', [projects'], Except.error ()⟩
    else ⟨projects, [], Except.ok ()⟩
  | Context.project _ _ => ⟨projects, [], Except.ok ()⟩

/-! Operation sequences of the navigation state machine. -/

/-- One navigation command: cursor down, cursor up, enter the task pane of
the selected project (carrying that project's task count), leave back to
the project pane, or shrink after a deletion. -/
inductive NavOp where
  | next
  | prev
  | enter (taskCount : Nat)
  | leave
  | shrink
deriving DecidableEq, Repr

/-- Effect of one navigation command on the sibling pair of contexts. -/
def navStep (s : NavState) : NavOp → NavState
  | NavOp.next => { s with context := next_line s.context }
  | NavOp.prev => { s with context := previous_line s.context }
  | NavOp.enter taskCount => enter_context taskCount s
  | NavOp.leave => leave_context s
  | NavOp.shrink => { s with context := shrinkCtx s.context }

/-- Run a sequence of navigation commands. -/
def navRun (s : NavState) (ops : List NavOp) : NavState := ops.foldl navStep s

/-- Guard of one command: shrink must not fire on the first row of a pane
holding at least two rows (deleting it would wrap the cursor row past the
header), and an entered pane must mirror fewer than 2^16 - 3 tasks after
the u16 cast (larger panes overflow row arithmetic). -/
def NavOp.ok (s : NavState) : NavOp → Bool
  | NavOp.shrink => decide (s.context.idx ≠ 0 ∨ s.context.paneLen ≤ 1)
  | NavOp.enter taskCount => decide (taskCount % U16 + HEADER_OFFSET + 1 < U16)
  | _ => true

/-- All commands of a sequence are guarded at their point of application. -/
def navOpsOk (s : NavState) : List NavOp → Bool
  | [] => true
  | op :: ops => op.ok s && navOpsOk (navStep s op) ops

/-- Structurally valid pane dimensions: the mirrored length leaves the u16
row arithmetic exact, and the cursor row sits on a list row of a non-empty
pane, or on one of the two rows HEADER_OFFSET, HEADER_OFFSET + 1 of an
empty pane. -/
abbrev validDims (line len : Nat) : Prop :=
  len + HEADER_OFFSET + 1 < U16 ∧
  ((len = 0 ∧ (line = HEADER_OFFSET ∨ line = HEADER_OFFSET + 1)) ∨
   (0 < len ∧ HEADER_OFFSET + 1 ≤ line ∧ line ≤ len + HEADER_OFFSET))

/-- Structural validity of one context. -/
abbrev Context.valid (c : Context) : Prop := validDims c.line c.paneLen

/-- Structural validity of the sibling pair. -/
abbrev NavState.valid (s : NavState) : Prop :=
  s.context.valid ∧ s.project_context.valid

/-- The cursor invariant of the spec: whenever the pane is non-empty the
0-based index lies in [0, paneLength) (the lower bound is inherent to
Nat). -/
abbrev Context.cursorInRange (c : Context) : Prop :=
  0 < c.paneLen → c.idx < c.paneLen

/-- Tasks are visually grouped by derived state: between two tasks of
equal derived state every task carries that same state, so equal states
occupy contiguous runs. -/
abbrev groupedByState (ts : List Task) : Prop :=
  ∀ k, k < ts.length → ∀ j, j < k → ∀ i, i < j →
    (ts.getD i default).state = (ts.getD k default).state →
    (ts.getD j default).state = (ts.getD i default).state

/-! Sample data used to instantiate theorems at concrete inputs. -/

def taskOngoingA : Task := ⟨"a", 0, [Event.state State.ONGOING 0]⟩
def taskDoneB : Task := ⟨"b", 0, [Event.state State.DONE 0]⟩
def taskDoneC : Task := ⟨"c", 0, [Event.state State.DONE 0]⟩
def taskTodoD : Task := ⟨"d", 0, [Event.state State.TODO 0]⟩

def sampleProject (ts : List Task) : Project := ⟨"p", "demo", "", ts⟩

def sampleSplitStore : List Project :=
  [sampleProject [taskOngoingA, taskDoneB, taskDoneC]]

/-! Helper lemmas. -/

@[simp] theorem updateAt_nil (i : Nat) (f : α → α) : updateAt [] i f = [] := rfl

@[simp] theorem updateAt_cons_zero (a : α) (as : List α) (f : α → α) :
    updateAt (a :: as) 0 f = f a :: as := rfl

@[simp] theorem updateAt_cons_succ (a : α) (as : List α) (i : Nat) (f : α → α) :
    updateAt (a :: as) (i + 1) f = a :: updateAt as i f := rfl

@[simp] theorem length_updateAt (l : List α) (i : Nat) (f : α → α) :
    (updateAt l i f).length = l.length := by
  induction l generalizing i with
  | nil => rfl
  | cons a as ih => cases i <;> simp [ih]

theorem getD_updateAt_self (l : List α) (i : Nat) (f : α → α) (d : α)
    (h : i < l.length) : (updateAt l i f).getD i d = f (l.getD i d) := by
  induction l generalizing i with
  | nil => simp at h
  | cons a as ih =>
    cases i with
    | zero => rfl
    | succ n => exact ih n (by simpa using h)

theorem updateAt_of_length_le (l : List α) (i : Nat) (f : α → α)
    (h : l.length ≤ i) : updateAt l i f = l := by
  induction l generalizing i with
  | nil => rfl
  | cons a as ih =>
    cases i with
    | zero => simp at h
    | succ n => simp [ih n (by simpa using h)]

theorem State.le_refl (a : State) : State.le a a = true := by
  cases a <;> rfl

theorem State.le_trans {a b c : State} (h1 : State.le a b = true)
    (h2 : State.le b c = true) : State.le a c = true := by
  simp only [State.le, decide_eq_true_eq] at h1 h2 ⊢
  omega

theorem State.le_total_bool (a b : State) :
    (State.le a b || State.le b a) = true := by
  simp only [State.le, Bool.or_eq_true, decide_eq_true_eq]
  omega

theorem State.rank_injective {a b : State} (h : a.rank = b.rank) : a = b := by
  cases a <;> cases b <;> simp_all [State.rank]

theorem getD_eq_getElem_of_lt (l : List α) (d : α) {i : Nat} (h : i < l.length) :
    l.getD i d = l[i] := by
  simp [List.getD_eq_getElem?_getD, List.getElem?_eq_getElem h]

theorem getD_of_length_le (l : List α) (d : α) {i : Nat} (h : l.length ≤ i) :
    l.getD i d = d := by
  simp [List.getD_eq_getElem?_getD, List.getElem?_eq_none h]

theorem sort_tasks_perm (p : Project) : p.sort_tasks.tasks.Perm p.tasks :=
  List.mergeSort_perm p.tasks _

theorem sort_tasks_sorted (p : Project) :
    List.Pairwise (fun a b : Task => a.state.le b.state = true)
      p.sort_tasks.tasks := by
  refine List.sorted_mergeSort ?_ ?_ p.tasks
  · intro a b c h1 h2
    exact State.le_trans h1 h2
  · intro a b
    exact State.le_total_bool a.state b.state

theorem groupedByState_of_sorted {ts : List Task}
    (h : List.Pairwise (fun a b : Task => a.state.le b.state = true) ts) :
    groupedByState ts := by
  intro k hk j hjk i hij heq
  have hik : i < ts.length := by omega
  have hjl : j < ts.length := by omega
  rw [getD_eq_getElem_of_lt ts default hik, getD_eq_getElem_of_lt ts default hjl,
    getD_eq_getElem_of_lt ts default hk] at *
  have h1 := List.pairwise_iff_getElem.mp h i j hik hjl hij
  have h2 := List.pairwise_iff_getElem.mp h j k hjl hk hjk
  simp only [State.le, decide_eq_true_eq] at h1 h2
  have : (ts[i].state).rank = (ts[k].state).rank := by rw [heq]
  exact State.rank_injective (by omega)

theorem groupedByState_nil : groupedByState [] := by
  intro k hk
  simp at hk

theorem groupedByState_updateAt_sort (db : List Project) (project : Nat) :
    groupedByState
      (((updateAt db project Project.sort_tasks).getD project default).tasks) := by
  rcases Nat.lt_or_ge project db.length with hp | hp
  · rw [getD_updateAt_self db project _ default hp]
    exact groupedByState_of_sorted (sort_tasks_sorted _)
  · rw [updateAt_of_length_le db project _ hp, getD_of_length_le db default hp]
    exact groupedByState_nil

theorem set_head_perm [Inhabited α] (a : α) :
    ∀ (as : List α) (m : Nat), m < as.length →
      List.Perm (as.getD m default :: as.set m a) (a :: as) := by
  intro as
  induction as with
  | nil =>
    intro m hm
    simp at hm
  | cons c cs ih =>
    intro m hm
    cases m with
    | zero => exact List.Perm.swap a c cs
    | succ k =>
      have h1 : List.Perm (cs.getD k default :: c :: cs.set k a)
          (c :: cs.getD k default :: cs.set k a) :=
        List.Perm.swap c (cs.getD k default) (cs.set k a)
      have h2 := (ih k (by simpa using hm)).cons c
      exact h1.trans (h2.trans (List.Perm.swap a c cs))

theorem swapPositions_perm [Inhabited α] :
    ∀ (l : List α) (i j : Nat), i < l.length → j < l.length →
      List.Perm (swapPositions l i j) l := by
  intro l
  induction l with
  | nil =>
    intro i j hi _
    simp at hi
  | cons a as ih =>
    intro i j hi hj
    cases i with
    | zero =>
      cases j with
      | zero => exact List.Perm.refl _
      | succ m =>
        show List.Perm (as.getD m default :: as.set m a) (a :: as)
        exact set_head_perm a as m (by simpa using hj)
    | succ n =>
      cases j with
      | zero =>
        show List.Perm (as.getD n default :: as.set n a) (a :: as)
        exact set_head_perm a as n (by simpa using hi)
      | succ m =>
        show List.Perm (a :: swapPositions as n m) (a :: as)
        exact (ih n m (by simpa using hi) (by simpa using hj)).cons a

theorem foldl_stepState_eq (es : List Event) :
    ∀ st : State, es.foldl stepState st = (lastStateData es).getD st := by
  induction es with
  | nil => intro st; rfl
  | cons e es ih =>
    intro st
    simp only [List.foldl_cons, ih]
    simp only [lastStateData, List.reverse_cons, List.findSome?_append]
    cases h : es.reverse.findSome? (fun e =>
        match e with
        | Event.state data _ => some data
        | _ => none) with
    | some d => simp [h]
    | none => cases e <;> simp [h, stepState]

theorem valid_cursorInRange {c : Context} (h : c.valid) : c.cursorInRange := by
  intro hpos
  simp only [Context.valid, validDims, HEADER_OFFSET, U16] at h
  simp only [Context.idx, HEADER_OFFSET, U16]
  omega

theorem next_line_valid {c : Context} (h : c.valid) : (next_line c).valid := by
  cases c with
  | project line len =>
    simp only [next_line, Context.valid, Context.line, Context.paneLen,
      validDims, HEADER_OFFSET, U16] at h ⊢
    omega
  | task line len =>
    simp only [next_line, Context.valid, Context.line, Context.paneLen,
      validDims, HEADER_OFFSET, U16] at h ⊢
    omega

theorem previous_line_valid {c : Context} (h : c.valid) :
    (previous_line c).valid := by
  cases c with
  | project line len =>
    simp only [previous_line, Context.valid, Context.line, Context.paneLen,
      validDims, HEADER_OFFSET, U16] at h ⊢
    omega
  | task line len =>
    simp only [previous_line, Context.valid, Context.line, Context.paneLen,
      validDims, HEADER_OFFSET, U16] at h ⊢
    omega

theorem shrinkCtx_valid {c : Context} (h : c.valid)
    (hg : c.idx ≠ 0 ∨ c.paneLen ≤ 1) : (shrinkCtx c).valid := by
  cases c with
  | project line len =>
    rcases Nat.eq_zero_or_pos len with h0 | hpos
    · subst h0
      simpa [shrinkCtx] using h
    · have hstep : shrinkCtx (Context.project line len) =
          Context.project ((line + (U16 - 1)) % U16) (len - 1) := by
        simp [shrinkCtx, hpos]
      rw [hstep]
      simp only [Context.valid, Context.line, Context.paneLen, Context.idx,
        validDims, HEADER_OFFSET, U16] at h hg ⊢
      omega
  | task line len =>
    rcases Nat.eq_zero_or_pos len with h0 | hpos
    · subst h0
      simpa [shrinkCtx] using h
    · have hstep : shrinkCtx (Context.task line len) =
          Context.task ((line + (U16 - 1)) % U16) (len - 1) := by
        simp [shrinkCtx, hpos]
      rw [hstep]
      simp only [Context.valid, Context.line, Context.paneLen, Context.idx,
        validDims, HEADER_OFFSET, U16] at h hg ⊢
      omega

theorem navStep_valid {s : NavState} {op : NavOp} (hv : s.valid)
    (hok : op.ok s = true) : (navStep s op).valid := by
  obtain ⟨ctx, pc⟩ := s
  cases op with
  | next => exact ⟨next_line_valid hv.1, hv.2⟩
  | prev => exact ⟨previous_line_valid hv.1, hv.2⟩
  | enter tc =>
    simp only [NavOp.ok, decide_eq_true_eq] at hok
    cases ctx with
    | project line len =>
      refine ⟨?_, hv.1⟩
      show validDims (HEADER_OFFSET + 1) (tc % U16)
      simp only [validDims, HEADER_OFFSET, U16] at hok ⊢
      refine ⟨hok, ?_⟩
      rcases Nat.eq_zero_or_pos (tc % 65536) with h0 | hp
      · exact Or.inl ⟨h0, Or.inr trivial⟩
      · exact Or.inr ⟨hp, Nat.le_refl _, by omega⟩
    | task line len => exact hv
  | leave =>
    cases ctx with
    | project line len => exact hv
    | task line len => exact ⟨hv.2, hv.2⟩
  | shrink =>
    refine ⟨shrinkCtx_valid hv.1 ?_, hv.2⟩
    simp only [NavOp.ok, decide_eq_true_eq] at hok
    exact hok

theorem navRun_valid {s : NavState} {ops : List NavOp} (hv : s.valid)
    (hok : navOpsOk s ops = true) : (navRun s ops).valid := by
  induction ops generalizing s with
  | nil => simpa [navRun] using hv
  | cons op ops ih =>
    simp only [navOpsOk, Bool.and_eq_true] at hok
    have h1 := navStep_valid hv hok.1
    have h2 := ih h1 hok.2
    simpa [navRun, List.foldl_cons] using h2

theorem navOpsOk_take {s : NavState} {ops : List NavOp}
    (hok : navOpsOk s ops = true) : ∀ k, navOpsOk s (ops.take k) = true := by
  induction ops generalizing s with
  | nil =>
    intro k
    simp [List.take_nil, navOpsOk]
  | cons op ops ih =>
    intro k
    cases k with
    | zero => rfl
    | succ k =>
      simp only [List.take_succ_cons, navOpsOk, Bool.and_eq_true] at hok ⊢
      exact ⟨hok.1, ih hok.2 k⟩

/-! Claim theorems. -/

/-- C2: for every Task, state() returns the data payload of the last
appended State event of its log, and TODO when the log holds no State
event (Option.getD covers both cases at once). -/
theorem C2_state_is_last_state_event (t : Task) :
    t.state = (lastStateData t.events).getD State.TODO :=
  foldl_stepState_eq t.events State.TODO

/-- C3: when the requested state equals the task's current derived state,
set_task_state returns Ok(None), appends no event, writes nothing, and
leaves the whole in-memory store unchanged. -/
theorem C3_set_task_state_no_change (saveOk : Bool) (now : Time)
    (db : List Project) (project task : Nat) (state : State)
    (hp : project < db.length)
    (ht : task < (db.getD project default).tasks.length)
    (hs : state = ((db.getD project default).tasks.getD task default).state) :
    Database.set_task_state saveOk now db project task state =
      ⟨db, [], Except.ok none⟩ := by
  simp [Database.set_task_state, hs]

/-- Witness: asking for TODO on a task whose derived state is already TODO
is a no-op of the store. -/
theorem C3_set_task_state_no_change_witness :
    Database.set_task_state true 7 [sampleProject [taskTodoD]] 0 0 State.TODO =
      ⟨[sampleProject [taskTodoD]], [], Except.ok none⟩ :=
  C3_set_task_state_no_change true 7 [sampleProject [taskTodoD]] 0 0 State.TODO
    (by decide) (by decide) (by decide)

/-- C10: the fixed group ordering used by sort_tasks is the declaration
order of the State enum, ONGOING before TODO before DONE: the output of
sort_tasks is pairwise non-decreasing for State.le, and State.le realizes
exactly ONGOING < TODO < DONE. -/
theorem C10_sort_order_is_declaration_order (p : Project) :
    List.Pairwise (fun a b : Task => a.state.le b.state = true)
        p.sort_tasks.tasks ∧
    State.le State.ONGOING State.TODO = true ∧
    State.le State.TODO State.DONE = true ∧
    State.le State.TODO State.ONGOING = false ∧
    State.le State.DONE State.TODO = false ∧
    State.le State.DONE State.ONGOING = false :=
  ⟨sort_tasks_sorted p, by decide, by decide, by decide, by decide, by decide⟩

/-- C8: sort_tasks — the one re-sort routine, invoked by add_task,
set_task_state and swap_tasks — is stable: for every project and every
derived state, the subsequence of tasks carrying that state (with its
order and multiplicities) is exactly the same before and after sorting,
so equal-state tasks retain their prior relative order across each
re-sort. -/
theorem C8_sort_tasks_stable (p : Project) (s : State) :
    p.sort_tasks.tasks.filter (fun t => t.state == s) =
      p.tasks.filter (fun t => t.state == s) := by
  have hmem : ∀ t ∈ p.tasks.filter (fun t => t.state == s), t.state = s := by
    intro t ht
    exact beq_iff_eq.mp (List.mem_filter.mp ht).2
  have hpair : (p.tasks.filter (fun t => t.state == s)).Pairwise
      (fun a b : Task => a.state.le b.state = true) := by
    refine List.pairwise_of_forall_mem_list ?_
    intro a ha b hb
    rw [hmem a ha, hmem b hb]
    exact State.le_refl s
  have hsub : List.Sublist (p.tasks.filter (fun t => t.state == s))
      (p.tasks.mergeSort (fun a b => a.state.le b.state)) := by
    refine List.sublist_mergeSort ?_ ?_ hpair (List.filter_sublist p.tasks)
    · intro a b c h1 h2
      exact State.le_trans h1 h2
    · intro a b
      exact State.le_total_bool a.state b.state
  have hsub2 : List.Sublist (p.tasks.filter (fun t => t.state == s))
      ((p.tasks.mergeSort (fun a b => a.state.le b.state)).filter
        (fun t => t.state == s)) := by
    have h := hsub.filter (fun t => t.state == s)
    rwa [List.filter_eq_self.mpr (fun a ha => (List.mem_filter.mp ha).2)] at h
  have hperm : ((p.tasks.mergeSort (fun a b => a.state.le b.state)).filter
      (fun t => t.state == s)).Perm (p.tasks.filter (fun t => t.state == s)) :=
    (List.mergeSort_perm p.tasks _).filter _
  exact (hsub2.eq_of_length hperm.length_eq.symm).symm

/-- C5 counterexample: change_status in main.rs is a state-affecting
mutation after which no re-sort happens: on a store whose tasks are
grouped (ONGOING, DONE, DONE), stepping the last task back to ONGOING
leaves the sequence (ONGOING, DONE, ONGOING), which is not grouped by
derived state. -/
theorem C5_change_status_not_resorted_counterexample :
    groupedByState ((sampleSplitStore.getD 0 default).tasks) ∧
    ¬ groupedByState
        (((change_status true 42 (Context.task 5 3) (Context.project 3 1)
            sampleSplitStore '<').projects.getD 0 default).tasks) := by
  constructor
  · decide
  · decide

/-- C5 amended: a re-sort-by-state keeping the tasks grouped follows every
state change made through the store API Database::set_task_state; the key
handler change_status of the running UI (src/main.rs) instead appends the
State event and saves without re-sorting, so its mutations can leave
equal-state tasks non-contiguous. -/
theorem C5_amended_set_task_state_groups (saveOk : Bool) (now : Time)
    (db : List Project) (project task : Nat) (state : State)
    (hs : state ≠ ((db.getD project default).tasks.getD task default).state) :
    groupedByState
      (((Database.set_task_state saveOk now db project task state).projects.getD
          project default).tasks) := by
  rw [Database.set_task_state, if_pos hs]
  cases saveOk
  · exact groupedByState_updateAt_sort _ project
  · exact groupedByState_updateAt_sort _ project

/-- Witness: stepping the single TODO task of a one-project store to DONE
yields a store whose task pane is grouped by state. -/
theorem C5_amended_witness :
    groupedByState
      (((Database.set_task_state true 9 [sampleProject [taskTodoD]] 0 0
          State.DONE).projects.getD 0 default).tasks) :=
  C5_amended_set_task_state_groups true 9 [sampleProject [taskTodoD]] 0 0
    State.DONE (by decide)

/-- C4: add_task appends the task to the addressed project, re-sorts that
project's task sequence by derived state (the result is a permutation of
the old sequence plus the new task, pairwise non-decreasing by state),
persists the mutated document, and on successful persist returns Some i
where the task at position i carries the added task's id. -/
theorem C4_add_task_appends_sorts_and_locates (db : List Project)
    (project : Nat) (task : Task) (hp : project < db.length) :
    (((Database.add_task true db project task).projects.getD project
        default).tasks).Perm ((db.getD project default).tasks ++ [task]) ∧
    List.Pairwise (fun a b : Task => a.state.le b.state = true)
      (((Database.add_task true db project task).projects.getD project
        default).tasks) ∧
    (Database.add_task true db project task).writes =
      [(Database.add_task true db project task).projects] ∧
    ∃ i, (Database.add_task true db project task).result =
        Except.ok (some i) ∧
      i < (((Database.add_task true db project task).projects.getD project
        default).tasks).length ∧
      ((((Database.add_task true db project task).projects.getD project
        default).tasks).getD i default).id = task.id := by
  have hkey : (Database.add_task true db project task).projects.getD project
      default = Project.sort_tasks
        { db.getD project default with
            tasks := (db.getD project default).tasks ++ [task] } := by
    show (updateAt db project _).getD project default = _
    rw [getD_updateAt_self db project _ default hp]
  refine ⟨?_, ?_, rfl, ?_⟩
  · rw [hkey]
    exact List.mergeSort_perm _ _
  · rw [hkey]
    exact sort_tasks_sorted _
  · have hres : (Database.add_task true db project task).result =
        Except.ok (((Database.add_task true db project task).projects.getD
          project default).task_position task.id) := rfl
    rw [hkey] at hres
    have hex : ∃ x, x ∈ (Project.sort_tasks
        { db.getD project default with
            tasks := (db.getD project default).tasks ++ [task] }).tasks ∧
        (fun t : Task => t.id == task.id) x = true := by
      refine ⟨task, ?_, by simp⟩
      show task ∈ List.mergeSort _ _
      rw [List.mem_mergeSort]
      exact List.mem_append_right _ (List.mem_singleton.mpr rfl)
    have hfind := List.findIdx?_eq_some_of_exists hex
    obtain ⟨hlt, hpred, -⟩ := List.findIdx?_eq_some_iff_getElem.mp hfind
    refine ⟨List.findIdx (fun t : Task => t.id == task.id)
      (Project.sort_tasks
        { db.getD project default with
            tasks := (db.getD project default).tasks ++ [task] }).tasks,
      ?_, ?_, ?_⟩
    · rw [hres]
      simp only [Project.task_position]
      rw [hfind]
    · rw [hkey]
      exact hlt
    · rw [hkey, getD_eq_getElem_of_lt _ default hlt]
      exact beq_iff_eq.mp hpred

/-- Witness: adding an ONGOING task to a project holding one DONE task
sorts it to the front and reports position 0. -/
theorem C4_add_task_witness :
    (((Database.add_task true [sampleProject [taskDoneB]] 0
        taskOngoingA).projects.getD 0 default).tasks).Perm
      (([sampleProject [taskDoneB]].getD 0 default).tasks ++ [taskOngoingA]) ∧
    List.Pairwise (fun a b : Task => a.state.le b.state = true)
      (((Database.add_task true [sampleProject [taskDoneB]] 0
        taskOngoingA).projects.getD 0 default).tasks) ∧
    (Database.add_task true [sampleProject [taskDoneB]] 0 taskOngoingA).writes =
      [(Database.add_task true [sampleProject [taskDoneB]] 0
        taskOngoingA).projects] ∧
    ∃ i, (Database.add_task true [sampleProject [taskDoneB]] 0
        taskOngoingA).result = Except.ok (some i) ∧
      i < (((Database.add_task true [sampleProject [taskDoneB]] 0
        taskOngoingA).projects.getD 0 default).tasks).length ∧
      ((((Database.add_task true [sampleProject [taskDoneB]] 0
        taskOngoingA).projects.getD 0 default).tasks).getD i default).id =
        taskOngoingA.id :=
  C4_add_task_appends_sorts_and_locates [sampleProject [taskDoneB]] 0
    taskOngoingA (by decide)

/-- C6 counterexample: swap_tasks re-sorts after exchanging, so the result
is not the old sequence with the two positions exchanged: swapping the
TODO task and the DONE task of a two-task project is immediately undone by
the re-sort, leaving the sequence identical to the original instead of
exchanged. -/
theorem C6_swap_tasks_resorts_counterexample :
    ((Database.swap_tasks true [sampleProject [taskTodoD, taskDoneB]] 0 0
        1).projects.getD 0 default).tasks ≠ [taskDoneB, taskTodoD] ∧
    ((Database.swap_tasks true [sampleProject [taskTodoD, taskDoneB]] 0 0
        1).projects.getD 0 default).tasks = [taskTodoD, taskDoneB] := by
  have heval : ((Database.swap_tasks true [sampleProject [taskTodoD, taskDoneB]]
      0 0 1).projects.getD 0 default).tasks = [taskTodoD, taskDoneB] := by
    simp [Database.swap_tasks, sampleProject, taskTodoD, taskDoneB,
      swapPositions, Project.sort_tasks, Task.state, stepState, State.le,
      State.rank, List.mergeSort, List.splitInTwo, List.merge]
  refine ⟨?_, heval⟩
  rw [heval]
  decide

/-- C6 amended: swap_tasks exchanges the two entries in place and then
re-sorts the project's task sequence by derived state before persisting,
so the result is the stable sort by state of the exchanged sequence: a
permutation of the old sequence, pairwise non-decreasing by state, with
the mutated document persisted (the pure exchange described by the claim
is what swap_projects and the swap_rows key handler do). -/
theorem C6_amended_swap_tasks_then_sort (saveOk : Bool) (db : List Project)
    (project first second : Nat) (hp : project < db.length)
    (h1 : first < (db.getD project default).tasks.length)
    (h2 : second < (db.getD project default).tasks.length) :
    (((Database.swap_tasks saveOk db project first second).projects.getD
        project default).tasks).Perm ((db.getD project default).tasks) ∧
    List.Pairwise (fun a b : Task => a.state.le b.state = true)
      (((Database.swap_tasks saveOk db project first second).projects.getD
        project default).tasks) ∧
    (Database.swap_tasks saveOk db project first second).writes =
      [(Database.swap_tasks saveOk db project first second).projects] := by
  have hkey : (Database.swap_tasks saveOk db project first second).projects.getD
      project default = Project.sort_tasks
        { db.getD project default with
            tasks := swapPositions (db.getD project default).tasks first second } := by
    have hmid : (updateAt db project (fun p =>
        { p with tasks := swapPositions p.tasks first second })).getD project
          default =
        { db.getD project default with
            tasks := swapPositions (db.getD project default).tasks first second } :=
      getD_updateAt_self db project _ default hp
    have hlen : project < (updateAt db project (fun p =>
        { p with tasks := swapPositions p.tasks first second })).length := by
      rw [length_updateAt]
      exact hp
    cases saveOk
    · show (updateAt _ project Project.sort_tasks).getD project default = _
      rw [getD_updateAt_self _ project _ default hlen, hmid]
    · show (updateAt _ project Project.sort_tasks).getD project default = _
      rw [getD_updateAt_self _ project _ default hlen, hmid]
  refine ⟨?_, ?_, ?_⟩
  · rw [hkey]
    exact (List.mergeSort_perm _ _).trans
      (swapPositions_perm (db.getD project default).tasks first second h1 h2)
  · rw [hkey]
    exact sort_tasks_sorted _
  · cases saveOk
    · rfl
    · rfl

/-- Witness: swapping the two tasks of a TODO/DONE project yields a
permutation of the original tasks, sorted by state, and one persisted
snapshot. -/
theorem C6_amended_swap_tasks_then_sort_witness :
    (((Database.swap_tasks true [sampleProject [taskTodoD, taskDoneB]] 0 0
        1).projects.getD 0 default).tasks).Perm
      (([sampleProject [taskTodoD, taskDoneB]].getD 0 default).tasks) ∧
    List.Pairwise (fun a b : Task => a.state.le b.state = true)
      (((Database.swap_tasks true [sampleProject [taskTodoD, taskDoneB]] 0 0
        1).projects.getD 0 default).tasks) ∧
    (Database.swap_tasks true [sampleProject [taskTodoD, taskDoneB]] 0 0
        1).writes =
      [(Database.swap_tasks true [sampleProject [taskTodoD, taskDoneB]] 0 0
        1).projects] :=
  C6_amended_swap_tasks_then_sort true [sampleProject [taskTodoD, taskDoneB]]
    0 0 1 (by decide) (by decide) (by decide)

/-- C9: when the synchronous persist fails (saveOk = false), every mutating
store operation keeps the in-memory collection exactly as on the successful
path — the mutation is not rolled back (for add_project and remove_project
the mutated collection is also spelled out) — and surfaces the I/O error
to the caller. -/
theorem C9_failed_persist_keeps_mutation (now : Time) (db : List Project)
    (project task first second : Nat) (state : State) (p : Project) (t : Task)
    (hs : state ≠ ((db.getD project default).tasks.getD task default).state) :
    (Database.set_task_state false now db project task state).projects =
      (Database.set_task_state true now db project task state).projects ∧
    (Database.set_task_state false now db project task state).result =
      Except.error () ∧
    (Database.add_project false db p).projects = db ++ [p] ∧
    (Database.add_project false db p).projects =
      (Database.add_project true db p).projects ∧
    (Database.add_project false db p).result = Except.error () ∧
    (Database.add_task false db project t).projects =
      (Database.add_task true db project t).projects ∧
    (Database.add_task false db project t).result = Except.error () ∧
    (Database.remove_project false db project).projects = db.eraseIdx project ∧
    (Database.remove_project false db project).projects =
      (Database.remove_project true db project).projects ∧
    (Database.remove_project false db project).result = Except.error () ∧
    (Database.remove_task false db project task).projects =
      (Database.remove_task true db project task).projects ∧
    (Database.remove_task false db project task).result = Except.error () ∧
    (Database.swap_projects false db first second).projects =
      (Database.swap_projects true db first second).projects ∧
    (Database.swap_projects false db first second).result = Except.error () ∧
    (Database.swap_tasks false db project first second).projects =
      (Database.swap_tasks true db project first second).projects ∧
    (Database.swap_tasks false db project first second).result =
      Except.error () := by
  refine ⟨?_, ?_, rfl, rfl, rfl, rfl, rfl, rfl, rfl, rfl, rfl, rfl, rfl, rfl,
    rfl, rfl⟩
  · rw [Database.set_task_state, Database.set_task_state, if_pos hs, if_pos hs]
    rfl
  · rw [Database.set_task_state, if_pos hs]
    rfl

/-- Witness: with a failing save, stepping the TODO task to DONE leaves
the mutated store in memory and reports the error; same for the other
operations at concrete indices. -/
theorem C9_failed_persist_keeps_mutation_witness :
    (Database.set_task_state false 1 [sampleProject [taskTodoD]] 0 0
        State.DONE).projects =
      (Database.set_task_state true 1 [sampleProject [taskTodoD]] 0 0
        State.DONE).projects ∧
    (Database.set_task_state false 1 [sampleProject [taskTodoD]] 0 0
        State.DONE).result = Except.error () ∧
    (Database.add_project false [sampleProject [taskTodoD]]
        (sampleProject [])).projects =
      [sampleProject [taskTodoD]] ++ [sampleProject []] ∧
    (Database.add_project false [sampleProject [taskTodoD]]
        (sampleProject [])).projects =
      (Database.add_project true [sampleProject [taskTodoD]]
        (sampleProject [])).projects ∧
    (Database.add_project false [sampleProject [taskTodoD]]
        (sampleProject [])).result = Except.error () ∧
    (Database.add_task false [sampleProject [taskTodoD]] 0
        taskOngoingA).projects =
      (Database.add_task true [sampleProject [taskTodoD]] 0
        taskOngoingA).projects ∧
    (Database.add_task false [sampleProject [taskTodoD]] 0
        taskOngoingA).result = Except.error () ∧
    (Database.remove_project false [sampleProject [taskTodoD]] 0).projects =
      [sampleProject [taskTodoD]].eraseIdx 0 ∧
    (Database.remove_project false [sampleProject [taskTodoD]] 0).projects =
      (Database.remove_project true [sampleProject [taskTodoD]] 0).projects ∧
    (Database.remove_project false [sampleProject [taskTodoD]] 0).result =
      Except.error () ∧
    (Database.remove_task false [sampleProject [taskTodoD]] 0 0).projects =
      (Database.remove_task true [sampleProject [taskTodoD]] 0 0).projects ∧
    (Database.remove_task false [sampleProject [taskTodoD]] 0 0).result =
      Except.error () ∧
    (Database.swap_projects false [sampleProject [taskTodoD]] 0 0).projects =
      (Database.swap_projects true [sampleProject [taskTodoD]] 0 0).projects ∧
    (Database.swap_projects false [sampleProject [taskTodoD]] 0 0).result =
      Except.error () ∧
    (Database.swap_tasks false [sampleProject [taskTodoD]] 0 0 0).projects =
      (Database.swap_tasks true [sampleProject [taskTodoD]] 0 0 0).projects ∧
    (Database.swap_tasks false [sampleProject [taskTodoD]] 0 0 0).result =
      Except.error () :=
  C9_failed_persist_keeps_mutation 1 [sampleProject [taskTodoD]] 0 0 0 0
    State.DONE (sampleProject []) taskOngoingA (by decide)

/-- C7 counterexample: movement on an empty pane is not a no-op in both
directions: next_line from the initial row HEADER_OFFSET + 1 of an empty
pane moves the cursor to row HEADER_OFFSET (the clamp target is
len + HEADER_OFFSET = HEADER_OFFSET, one row above the first list row),
changing the Context. -/
theorem C7_empty_pane_next_line_counterexample :
    next_line (Context.project (HEADER_OFFSET + 1) 0) ≠
      Context.project (HEADER_OFFSET + 1) 0 ∧
    next_line (Context.project (HEADER_OFFSET + 1) 0) =
      Context.project HEADER_OFFSET 0 := by
  constructor
  · decide
  · decide

/-- C7 amended: on an empty pane deletion is a no-op from any cursor row
(nothing is removed and the Context is returned unchanged), and
previous_line is a no-op from the initial row HEADER_OFFSET + 1; next_line
however moves the cursor row from HEADER_OFFSET + 1 up to HEADER_OFFSET,
after which next_line is a no-op. -/
theorem C7_amended_empty_pane_ops (line : Nat) (pc : Context)
    (ps : List Project) :
    delete_current_line (Context.project line 0) pc ps =
      (Context.project line 0, ps) ∧
    delete_current_line (Context.task line 0) pc ps =
      (Context.task line 0, ps) ∧
    previous_line (Context.project (HEADER_OFFSET + 1) 0) =
      Context.project (HEADER_OFFSET + 1) 0 ∧
    previous_line (Context.task (HEADER_OFFSET + 1) 0) =
      Context.task (HEADER_OFFSET + 1) 0 ∧
    next_line (Context.project (HEADER_OFFSET + 1) 0) =
      Context.project HEADER_OFFSET 0 ∧
    next_line (Context.task (HEADER_OFFSET + 1) 0) =
      Context.task HEADER_OFFSET 0 ∧
    next_line (Context.project HEADER_OFFSET 0) =
      Context.project HEADER_OFFSET 0 ∧
    next_line (Context.task HEADER_OFFSET 0) =
      Context.task HEADER_OFFSET 0 :=
  ⟨rfl, rfl, by decide, by decide, by decide, by decide, by decide, by decide⟩

/-- C1 counterexample: the invariant is not preserved by shrink at index 0
of a pane holding two rows: the Context (row 3, length 2) has index 0 in
range, but deleting its first row yields (row 2, length 1), whose index is
the u16 wrap of 2 - 3 = 65535, far outside [0, 1). -/
theorem C1_shrink_at_first_row_counterexample :
    (Context.project (HEADER_OFFSET + 1) 2).cursorInRange ∧
    ¬ ((navRun ⟨Context.project (HEADER_OFFSET + 1) 2,
        Context.project (HEADER_OFFSET + 1) 2⟩
        [NavOp.shrink]).context.cursorInRange) := by
  constructor
  · decide
  · decide

/-- C1 amended: for every structurally valid pair of contexts (cursor row
within [HEADER_OFFSET + 1, paneLength + HEADER_OFFSET] on a non-empty
pane, row HEADER_OFFSET or HEADER_OFFSET + 1 on an empty one, and
paneLength small enough that the u16 row arithmetic is exact) and every
guarded sequence of navigation operations — shrink never fired on the
first row of a pane with at least two rows, entered panes mirroring fewer
than 2^16 - 3 tasks — the index lies in [0, paneLength) whenever
paneLength > 0, after every prefix of the sequence, for the active and
the remembered context alike. -/
theorem C1_amended_guarded_navigation_invariant (s : NavState)
    (ops : List NavOp) (k : Nat) (hv : s.valid)
    (hok : navOpsOk s ops = true) :
    (navRun s (ops.take k)).context.cursorInRange ∧
    (navRun s (ops.take k)).project_context.cursorInRange := by
  have hval := navRun_valid hv (navOpsOk_take hok k)
  exact ⟨valid_cursorInRange hval.1, valid_cursorInRange hval.2⟩

/-- Witness: a guarded six-step tour (down, enter a one-task project,
down, delete the only task, leave, up) keeps the cursor index in range. -/
theorem C1_amended_guarded_navigation_invariant_witness :
    (navRun ⟨Context.project 3 2, Context.project 3 2⟩
        ([NavOp.next, NavOp.enter 1, NavOp.next, NavOp.shrink, NavOp.leave,
          NavOp.prev].take 6)).context.cursorInRange ∧
    (navRun ⟨Context.project 3 2, Context.project 3 2⟩
        ([NavOp.next, NavOp.enter 1, NavOp.next, NavOp.shrink, NavOp.leave,
          NavOp.prev].take 6)).project_context.cursorInRange :=
  C1_amended_guarded_navigation_invariant
    ⟨Context.project 3 2, Context.project 3 2⟩
    [NavOp.next, NavOp.enter 1, NavOp.next, NavOp.shrink, NavOp.leave,
      NavOp.prev] 6 (by decide) (by decide)

end RTasks
